import Mathlib

/-!
Verification development for the go-coinspaid client library.

The library signs HTTP request bodies with HMAC-SHA-512, issues POST requests
for two operations (TakeAddress, WithdrawCrypto) and classifies HTTP responses
into typed results and errors.  This file gives a shallow embedding of the
package: the JSON data model and a model of the relevant behaviour of the Go
standard library `encoding/json` (syntax validation first, then best-effort
decoding that populates the fields it can and reports the first type error),
the response classifier `checkResponse`, the request signer
`createSignedRequestHeader` (a full executable HMAC-SHA-512 over byte lists),
the constructor `NewClient`, and the operation pipelines, in both revisions of
`Address.UnmarshalJSON` present in the repository.  Theorems at the end settle
the specification claims against these definitions.
-/

/-! ## JSON values

A JSON value as seen after `encoding/json` syntax validation.  Number tokens
keep their raw text: the library's `ID.UnmarshalJSON` stores the raw token
bytes verbatim, so the embedding must not collapse numbers to their values.
Object members keep their source order (later duplicates overwrite earlier
ones during decoding, as in Go).
-/
inductive Json where
  | null
  | bool (b : Bool)
  | num (raw : String)
  | str (s : String)
  | arr (elems : List Json)
  | obj (members : List (String × Json))
deriving Repr

/-- The left brace character, written via its code point. -/
def lbrace : Char := Char.ofNat 123

/-- The right brace character, written via its code point. -/
def rbrace : Char := Char.ofNat 125

/-- Whitespace accepted between JSON tokens (space, tab, newline, return). -/
def isJsonWS (c : Char) : Bool :=
  c = ' ' || c = '\t' || c = '\n' || c = '\r'

/-- Drop leading JSON whitespace. -/
def skipWS : List Char → List Char
  | c :: cs => if isJsonWS c then skipWS cs else c :: cs
  | [] => []

/-- Value of a hexadecimal digit character, if any. -/
def hexVal (c : Char) : Option Nat :=
  if '0' ≤ c ∧ c ≤ '9' then some (c.toNat - '0'.toNat)
  else if 'a' ≤ c ∧ c ≤ 'f' then some (c.toNat - 'a'.toNat + 10)
  else if 'A' ≤ c ∧ c ≤ 'F' then some (c.toNat - 'A'.toNat + 10)
  else none

/-- Single-character escapes inside JSON strings. -/
def simpleEscape (c : Char) : Option Char :=
  if c = '"' then some '"'
  else if c = '\\' then some '\\'
  else if c = '/' then some '/'
  else if c = 'b' then some (Char.ofNat 8)
  else if c = 'f' then some (Char.ofNat 12)
  else if c = 'n' then some '\n'
  else if c = 'r' then some '\r'
  else if c = 't' then some '\t'
  else none

/-- Combine four hex digits into a code unit. -/
def hex4 (a b c d : Char) : Option Nat := do
  let va ← hexVal a
  let vb ← hexVal b
  let vc ← hexVal c
  let vd ← hexVal d
  pure (va * 4096 + vb * 256 + vc * 16 + vd)

/-- Parse the body of a JSON string after the opening quote.  Handles simple
escapes and `\uXXXX` with surrogate pairs; an unpaired surrogate becomes
U+FFFD, as in the Go decoder.  Rejects raw control characters. -/
def parseStringBody : Nat → List Char → List Char → Option (String × List Char)
  | 0, _, _ => none
  | _ + 1, [], _ => none
  | fuel + 1, c :: rest, acc =>
    if c = '"' then some (String.mk acc.reverse, rest)
    else if c = '\\' then
      match rest with
      | [] => none
      | 'u' :: a :: b :: c2 :: d :: rest2 =>
        match hex4 a b c2 d with
        | none => none
        | some n =>
          if 0xD800 ≤ n ∧ n ≤ 0xDBFF then
            match rest2 with
            | '\\' :: 'u' :: e :: f :: g :: h :: rest3 =>
              match hex4 e f g h with
              | some m =>
                if 0xDC00 ≤ m ∧ m ≤ 0xDFFF then
                  parseStringBody fuel rest3
                    (Char.ofNat (0x10000 + (n - 0xD800) * 0x400 + (m - 0xDC00)) :: acc)
                else parseStringBody fuel rest2 (Char.ofNat 0xFFFD :: acc)
              | none => parseStringBody fuel rest2 (Char.ofNat 0xFFFD :: acc)
            | _ => parseStringBody fuel rest2 (Char.ofNat 0xFFFD :: acc)
          else if 0xDC00 ≤ n ∧ n ≤ 0xDFFF then
            parseStringBody fuel rest2 (Char.ofNat 0xFFFD :: acc)
          else parseStringBody fuel rest2 (Char.ofNat n :: acc)
      | 'u' :: _ => none
      | e :: rest2 =>
        match simpleEscape e with
        | some ch => parseStringBody fuel rest2 (ch :: acc)
        | none => none
    else if c.toNat < 0x20 then none
    else parseStringBody fuel rest (c :: acc)

/-- Take a maximal run of decimal digits. -/
def takeDigits : List Char → List Char × List Char
  | c :: cs =>
    if c.isDigit then
      let (d, r) := takeDigits cs
      (c :: d, r)
    else ([], c :: cs)
  | [] => ([], [])

/-- Parse a JSON number token, returning its raw text.  Follows the JSON
grammar enforced by the Go scanner: optional minus, an integer part without
redundant leading zero, optional fraction and exponent. -/
def parseNumberToken (cs : List Char) : Option (String × List Char) :=
  let (sign, cs1) :=
    match cs with
    | '-' :: r => (['-'], r)
    | r => (([] : List Char), r)
  match cs1 with
  | [] => none
  | c :: r =>
    if ¬ c.isDigit then none
    else
      let (intPart, cs2) :=
        if c = '0' then (['0'], r)
        else
          let (d, r2) := takeDigits r
          (c :: d, r2)
      let (fracPart, cs3) :=
        match cs2 with
        | '.' :: r2 =>
          match takeDigits r2 with
          | ([], _) => (none, cs2)
          | (d, r3) => (some ('.' :: d), r3)
        | _ => (none, cs2)
      match fracPart with
      | none =>
        match cs2 with
        | '.' :: _ => none
        | _ =>
          match parseExpPart cs2 with
          | none => none
          | some (expPart, cs4) =>
            some (String.mk (sign ++ intPart ++ expPart), cs4)
      | some f =>
        match parseExpPart cs3 with
        | none => none
        | some (expPart, cs4) =>
          some (String.mk (sign ++ intPart ++ f ++ expPart), cs4)
where
  /-- Parse an optional exponent part; `none` means a malformed exponent. -/
  parseExpPart (cs : List Char) : Option (List Char × List Char) :=
    match cs with
    | 'e' :: r => parseExpDigits 'e' r
    | 'E' :: r => parseExpDigits 'E' r
    | _ => some ([], cs)
  /-- Parse the sign and digits after an exponent marker. -/
  parseExpDigits (e : Char) (r : List Char) : Option (List Char × List Char) :=
    let (sgn, r2) :=
      match r with
      | '+' :: r2 => (['+'], r2)
      | '-' :: r2 => (['-'], r2)
      | r2 => (([] : List Char), r2)
    match takeDigits r2 with
    | ([], _) => none
    | (d, r3) => some (e :: (sgn ++ d), r3)

mutual

/-- Parse one JSON value.  Fuel-based recursion; the top-level entry point
supplies enough fuel for any input it is called on. -/
def parseValue : Nat → List Char → Option (Json × List Char)
  | 0, _ => none
  | fuel + 1, cs =>
    match skipWS cs with
    | [] => none
    | 'n' :: 'u' :: 'l' :: 'l' :: r => some (.null, r)
    | 't' :: 'r' :: 'u' :: 'e' :: r => some (.bool true, r)
    | 'f' :: 'a' :: 'l' :: 's' :: 'e' :: r => some (.bool false, r)
    | c :: r =>
      if c = '"' then
        match parseStringBody (r.length + 1) r [] with
        | some (s, rest) => some (.str s, rest)
        | none => none
      else if c = '[' then
        match skipWS r with
        | ']' :: rest => some (.arr [], rest)
        | _ => parseElems fuel r []
      else if c = lbrace then
        match skipWS r with
        | r2 =>
          if r2.head? = some rbrace then some (.obj [], r2.tail)
          else parseMembers fuel r []
      else if c = '-' ∨ c.isDigit then
        match parseNumberToken (c :: r) with
        | some (raw, rest) => some (.num raw, rest)
        | none => none
      else none

/-- Parse the elements of a non-empty JSON array, starting after `[` or `,`. -/
def parseElems : Nat → List Char → List Json → Option (Json × List Char)
  | 0, _, _ => none
  | fuel + 1, cs, acc =>
    match parseValue fuel cs with
    | none => none
    | some (v, rest) =>
      match skipWS rest with
      | ',' :: r2 => parseElems fuel r2 (v :: acc)
      | ']' :: r2 => some (.arr (v :: acc).reverse, r2)
      | _ => none

/-- Parse the members of a non-empty JSON object, starting after the opening
brace or a comma. -/
def parseMembers : Nat → List Char → List (String × Json) →
    Option (Json × List Char)
  | 0, _, _ => none
  | fuel + 1, cs, acc =>
    match skipWS cs with
    | '"' :: r =>
      match parseStringBody (r.length + 1) r [] with
      | none => none
      | some (k, rest) =>
        match skipWS rest with
        | ':' :: r2 =>
          match parseValue fuel r2 with
          | none => none
          | some (v, r3) =>
            match skipWS r3 with
            | ',' :: r4 => parseMembers fuel r4 ((k, v) :: acc)
            | c :: r4 =>
              if c = rbrace then some (.obj ((k, v) :: acc).reverse, r4)
              else none
            | [] => none
        | _ => none
    | _ => none

end

/-- Parse a whole JSON document: one value surrounded by optional whitespace.
Models the syntax check `encoding/json` performs on the entire input before
any decoding; `none` corresponds to a syntax error (including empty input). -/
def parseJson (s : String) : Option Json :=
  match parseValue (3 * s.length + 8) s.toList with
  | some (j, rest) => if skipWS rest = [] then some j else none
  | none => none

/-! ## Best-effort decoding

`encoding/json` validates the syntax of the whole input first, then decodes
best-effort: when a JSON value does not fit the target field it records the
first such error, leaves that field alone, and keeps decoding the remaining
members ("Unmarshal skips that field and completes the unmarshaling as best
it can", returning the earliest error).  `UnmarshalOutcome` captures the
final state of the target value together with that saved first error.
Struct-field and map-key matching is case-insensitive on the JSON tag names,
as in Go; unknown members are skipped without error.  The untagged
`Response *http.Response` context fields of the error structs are treated as
unknown members here (bodies carrying a `response` member are outside the
modeled input space).
-/

/-- ASCII lowercase of a character (`String.toLower` does not reduce
definitionally, so key folding is implemented directly; the tag names
involved are ASCII). -/
def lowerAscii (c : Char) : Char :=
  if 'A' ≤ c ∧ c ≤ 'Z' then Char.ofNat (c.toNat + 32) else c

/-- ASCII lowercase of a string, for case-insensitive member matching. -/
def lowerKey (s : String) : String :=
  String.mk (s.toList.map lowerAscii)

/-- The populated value and the first saved decode error, if any. -/
structure UnmarshalOutcome (α : Type) where
  value : α
  err : Option String
deriving Repr, DecidableEq

/-- Keep the first saved error, as the Go decoder does. -/
def keepFirst : Option String → String → Option String
  | some e, _ => some e
  | none, e => some e

/-- The `error` and `code` members of `ErrorResponse`, with Go zero values. -/
structure ErrFields where
  message : String
  code : String
deriving Repr, DecidableEq

/-- Zero value of `ErrorResponse` before decoding. -/
def zeroErr : ErrFields := ⟨"", ""⟩

/-- Decode one object member into `ErrorResponse`: `error` and `code` are
string fields (JSON null is a no-op, other mismatches save a type error);
anything else is skipped. -/
def errField (acc : UnmarshalOutcome ErrFields) (k : String) (v : Json) :
    UnmarshalOutcome ErrFields :=
  if lowerKey k = "error" then
    match v with
    | .str s => ⟨{ acc.value with message := s }, acc.err⟩
    | .null => acc
    | _ => ⟨acc.value, keepFirst acc.err "json: cannot unmarshal value into string field error"⟩
  else if lowerKey k = "code" then
    match v with
    | .str s => ⟨{ acc.value with code := s }, acc.err⟩
    | .null => acc
    | _ => ⟨acc.value, keepFirst acc.err "json: cannot unmarshal value into string field code"⟩
  else acc

/-- `json.Unmarshal` of a parsed document into `ErrorResponse`. -/
def unmarshalErrorResponseJson : Json → UnmarshalOutcome ErrFields
  | .null => ⟨zeroErr, none⟩
  | .obj members => members.foldl (fun acc kv => errField acc kv.1 kv.2) ⟨zeroErr, none⟩
  | _ => ⟨zeroErr, some "json: cannot unmarshal value into ErrorResponse"⟩

/-- `json.Unmarshal` of raw body bytes into `ErrorResponse`: a syntax error
(including empty input) mutates nothing and is reported. -/
def unmarshalErrorResponseStr (body : String) : UnmarshalOutcome ErrFields :=
  match parseJson body with
  | none => ⟨zeroErr, some "invalid JSON"⟩
  | some j => unmarshalErrorResponseJson j

/-- Insert into the model of a Go `map[string]string` (association list,
overwriting an existing key in place). -/
def insertEntry : List (String × String) → String → String → List (String × String)
  | [], k, v => [(k, v)]
  | (k0, v0) :: rest, k, v =>
    if k0 = k then (k, v) :: rest else (k0, v0) :: insertEntry rest k v

/-- Decode one member of the `errors` object into the map: the element value
is decoded into a fresh zero string, a type mismatch saves an error, and the
key is inserted with whatever the element decode produced (the zero string
when it failed or was null) — the Go decoder sets the map index even when the
element decode saved an error. -/
def mapEntry (acc : UnmarshalOutcome (List (String × String))) (k : String) (v : Json) :
    UnmarshalOutcome (List (String × String)) :=
  match v with
  | .str s => ⟨insertEntry acc.value k s, acc.err⟩
  | .null => ⟨insertEntry acc.value k "", acc.err⟩
  | _ => ⟨insertEntry acc.value k "", keepFirst acc.err "json: cannot unmarshal value into string map element"⟩

/-- Decode one object member into `ValidationErrorResponse`: only the
`errors` member is a known field (a map of strings). -/
def valField (acc : UnmarshalOutcome (List (String × String))) (k : String) (v : Json) :
    UnmarshalOutcome (List (String × String)) :=
  if lowerKey k = "errors" then
    match v with
    | .null => acc
    | .obj entries => entries.foldl (fun a kv => mapEntry a kv.1 kv.2) acc
    | _ => ⟨acc.value, keepFirst acc.err "json: cannot unmarshal value into map field errors"⟩
  else acc

/-- `json.Unmarshal` of a parsed document into `ValidationErrorResponse`. -/
def unmarshalValidationJson : Json → UnmarshalOutcome (List (String × String))
  | .null => ⟨[], none⟩
  | .obj members => members.foldl (fun acc kv => valField acc kv.1 kv.2) ⟨[], none⟩
  | _ => ⟨[], some "json: cannot unmarshal value into ValidationErrorResponse"⟩

/-- `json.Unmarshal` of raw body bytes into `ValidationErrorResponse`. -/
def unmarshalValidationStr (body : String) : UnmarshalOutcome (List (String × String)) :=
  match parseJson body with
  | none => ⟨[], some "invalid JSON"⟩
  | some j => unmarshalValidationJson j

/-! ## Output structs and their decoders -/

/-- `Address` holds the data returned from the API (Go zero values: 0 and "").
The Go field `Address` is written `Address_` here because inside the `Address`
namespace the bare name would shadow the type. -/
structure Address where
  ID : Int
  Currency : String
  ConvertTo : String
  Address_ : String
  Tag : String
  ForeignID : String
deriving Repr, DecidableEq

/-- Zero value of `Address`. -/
def zeroAddress : Address := ⟨0, "", "", "", "", ""⟩

/-- Digits of a decimal literal as a natural number. -/
def digitsToNat : List Char → Option Nat
  | [] => none
  | ds =>
    if ds.all Char.isDigit then
      some (ds.foldl (fun acc c => acc * 10 + (c.toNat - '0'.toNat)) 0)
    else none

/-- `strconv.ParseInt` on a JSON number token with bit size 64, as the Go
decoder uses for integer fields: an optional sign followed by plain digits,
rejecting fractions, exponents and values outside the int64 range. -/
def parseIntToken (s : String) : Option Int :=
  match s.toList with
  | '-' :: ds =>
    match digitsToNat ds with
    | some n => if n ≤ 2 ^ 63 then some (-(n : Int)) else none
    | none => none
  | ds =>
    match digitsToNat ds with
    | some n => if n < 2 ^ 63 then some (n : Int) else none
    | none => none

/-- Decode a JSON value into a string field of a struct: strings are stored,
null is a no-op, anything else saves a type error. -/
def strInto {α : Type} (acc : UnmarshalOutcome α) (v : Json) (set : α → String → α) :
    UnmarshalOutcome α :=
  match v with
  | .str s => ⟨set acc.value s, acc.err⟩
  | .null => acc
  | _ => ⟨acc.value, keepFirst acc.err "json: cannot unmarshal value into string field"⟩

/-- Decode one member of the `data` object into an `Address` field. -/
def addressField (acc : UnmarshalOutcome Address) (k : String) (v : Json) :
    UnmarshalOutcome Address :=
  if lowerKey k = "id" then
    match v with
    | .num raw =>
      match parseIntToken raw with
      | some n => ⟨{ acc.value with ID := n }, acc.err⟩
      | none => ⟨acc.value, keepFirst acc.err "json: cannot unmarshal number into int field id"⟩
    | .null => acc
    | _ => ⟨acc.value, keepFirst acc.err "json: cannot unmarshal value into int field id"⟩
  else if lowerKey k = "currency" then strInto acc v (fun a s => { a with Currency := s })
  else if lowerKey k = "convert_to" then strInto acc v (fun a s => { a with ConvertTo := s })
  else if lowerKey k = "address" then strInto acc v (fun a s => { a with Address_ := s })
  else if lowerKey k = "tag" then strInto acc v (fun a s => { a with Tag := s })
  else if lowerKey k = "foreign_id" then strInto acc v (fun a s => { a with ForeignID := s })
  else acc

/-- `json.Unmarshal` of a parsed document into the anonymous envelope struct
`struct { Data Alias }` used by `Address.UnmarshalJSON`: the only known
member is `data`, itself decoded field by field into the `Address`. -/
def unmarshalAddressEnvelope : Json → UnmarshalOutcome Address
  | .null => ⟨zeroAddress, none⟩
  | .obj members =>
    members.foldl
      (fun acc kv =>
        if lowerKey kv.1 = "data" then
          match kv.2 with
          | .null => acc
          | .obj fields => fields.foldl (fun a f => addressField a f.1 f.2) acc
          | _ => ⟨acc.value, keepFirst acc.err "json: cannot unmarshal value into struct field data"⟩
        else acc)
      ⟨zeroAddress, none⟩
  | _ => ⟨zeroAddress, some "json: cannot unmarshal value into address envelope"⟩

/-- `Address.UnmarshalJSON` as in `src/unnamed/part_001`: unmarshal the raw
bytes into the envelope, return the error on failure, otherwise store the
unwrapped `data` value. -/
def Address.UnmarshalJSON (data : String) : Except String Address :=
  match parseJson data with
  | none => .error "invalid JSON"
  | some j =>
    match unmarshalAddressEnvelope j with
    | ⟨_, some e⟩ => .error e
    | ⟨a, none⟩ => .ok a

/-- `Address.UnmarshalJSON` as in `src/coinspaid.go` (the other revision of
the same file in this repository): identical except that the branch on an
unmarshal failure is `return nil`, reporting success and leaving the receiver
at its prior value. -/
def Address.UnmarshalJSONOld (prior : Address) (data : String) : Except String Address :=
  match parseJson data with
  | none => .ok prior
  | some j =>
    match unmarshalAddressEnvelope j with
    | ⟨_, some _⟩ => .ok prior
    | ⟨a, none⟩ => .ok a

/-- The withdrawal identifier: a string type whose `UnmarshalJSON` stores the
raw JSON token bytes verbatim. -/
abbrev ID := String

/-- `ID.UnmarshalJSON`: store the raw bytes, never fail. -/
def ID.UnmarshalJSON (data : String) : Except String ID :=
  .ok data

mutual

/-- Reconstruct the raw byte slice the Go decoder hands to a nested
`Unmarshaler` for a given value.  In Go this is the original source slice;
here it is the canonical rendering, which coincides with the source on
canonically formatted input (no redundant whitespace or escapes). -/
def renderRaw : Json → String
  | .null => "null"
  | .bool true => "true"
  | .bool false => "false"
  | .num raw => raw
  | .str s => "\"" ++ escapeJsonString s.toList ++ "\""
  | .arr es => "[" ++ renderRawList es ++ "]"
  | .obj ms => String.mk [lbrace] ++ renderRawMembers ms ++ String.mk [rbrace]

/-- Render array elements, comma separated. -/
def renderRawList : List Json → String
  | [] => ""
  | [j] => renderRaw j
  | j :: rest => renderRaw j ++ "," ++ renderRawList rest

/-- Render object members, comma separated. -/
def renderRawMembers : List (String × Json) → String
  | [] => ""
  | [(k, v)] => "\"" ++ escapeJsonString k.toList ++ "\":" ++ renderRaw v
  | (k, v) :: rest =>
    "\"" ++ escapeJsonString k.toList ++ "\":" ++ renderRaw v ++ "," ++ renderRawMembers rest

/-- Escape the content of a JSON string literal (quote, backslash and the
common control characters; other characters are emitted as themselves). -/
def escapeJsonString : List Char → String
  | [] => ""
  | c :: rest =>
    (if c = '"' then "\\\""
     else if c = '\\' then "\\\\"
     else if c = '\n' then "\\n"
     else if c = '\t' then "\\t"
     else if c = '\r' then "\\r"
     else String.mk [c]) ++ escapeJsonString rest

end

/-- `WithdrawCryptoPayload` holds the data returned from the API.  The Go
field `Type` is written `type_` here because `Type` is reserved in Lean. -/
structure WithdrawCryptoPayload where
  ID : ID
  ForeignID : String
  type_ : String
  Status : String
  Amount : String
  SenderCurrency : String
  SenderAmount : String
  ReceiverCurrency : String
  ReceiverAmount : String
deriving Repr, DecidableEq

/-- Zero value of `WithdrawCryptoPayload`. -/
def zeroWithdraw : WithdrawCryptoPayload := ⟨"", "", "", "", "", "", "", "", ""⟩

/-- Decode one member of the `data` object into a `WithdrawCryptoPayload`
field.  The `id` field has an `Unmarshaler` (`ID.UnmarshalJSON`), which
receives the raw bytes of the value and never fails. -/
def withdrawField (acc : UnmarshalOutcome WithdrawCryptoPayload) (k : String) (v : Json) :
    UnmarshalOutcome WithdrawCryptoPayload :=
  if lowerKey k = "id" then
    match ID.UnmarshalJSON (renderRaw v) with
    | .ok i => ⟨{ acc.value with ID := i }, acc.err⟩
    | .error e => ⟨acc.value, keepFirst acc.err e⟩
  else if lowerKey k = "foreign_id" then strInto acc v (fun a s => { a with ForeignID := s })
  else if lowerKey k = "type" then strInto acc v (fun a s => { a with type_ := s })
  else if lowerKey k = "status" then strInto acc v (fun a s => { a with Status := s })
  else if lowerKey k = "amount" then strInto acc v (fun a s => { a with Amount := s })
  else if lowerKey k = "sender_currency" then strInto acc v (fun a s => { a with SenderCurrency := s })
  else if lowerKey k = "sender_amount" then strInto acc v (fun a s => { a with SenderAmount := s })
  else if lowerKey k = "receiver_currency" then strInto acc v (fun a s => { a with ReceiverCurrency := s })
  else if lowerKey k = "receiver_amount" then strInto acc v (fun a s => { a with ReceiverAmount := s })
  else acc

/-- `json.Unmarshal` of a parsed document into the anonymous envelope struct
used by `WithdrawCryptoPayload.UnmarshalJSON`. -/
def unmarshalWithdrawEnvelope : Json → UnmarshalOutcome WithdrawCryptoPayload
  | .null => ⟨zeroWithdraw, none⟩
  | .obj members =>
    members.foldl
      (fun acc kv =>
        if lowerKey kv.1 = "data" then
          match kv.2 with
          | .null => acc
          | .obj fields => fields.foldl (fun a f => withdrawField a f.1 f.2) acc
          | _ => ⟨acc.value, keepFirst acc.err "json: cannot unmarshal value into struct field data"⟩
        else acc)
      ⟨zeroWithdraw, none⟩
  | _ => ⟨zeroWithdraw, some "json: cannot unmarshal value into withdraw envelope"⟩

/-- `WithdrawCryptoPayload.UnmarshalJSON` as in `src/unnamed/part_001`:
unmarshal into the envelope, return the error on failure, otherwise store the
unwrapped `data` value. -/
def WithdrawCryptoPayload.UnmarshalJSON (data : String) : Except String WithdrawCryptoPayload :=
  match parseJson data with
  | none => .error "invalid JSON"
  | some j =>
    match unmarshalWithdrawEnvelope j with
    | ⟨_, some e⟩ => .error e
    | ⟨w, none⟩ => .ok w

/-! ## Response classification -/

/-- An HTTP response as seen by the client: status code and body bytes.  The
transport layer (timeouts, DNS, TLS) is outside the model; a call that
reaches classification has a response. -/
structure HttpResponse where
  status : Nat
  body : String
deriving Repr, DecidableEq

/-- The two error values `checkResponse` can return: `ErrorResponse` with its
decoded message and code, or `ValidationErrorResponse` with the decoded
field-to-message map.  Both carry the response status as request context. -/
inductive CheckError where
  | errorResponse (status : Nat) (message code : String)
  | validationError (status : Nat) (errors : List (String × String))
deriving Repr, DecidableEq

/-- `checkResponse`: 2xx statuses pass; otherwise the body is read and
unmarshaled best-effort into `ErrorResponse` (on failure the raw body text
overwrites the message, while fields populated before the failure are kept);
a 400 status returns a `ValidationErrorResponse` built from the same body
with the unmarshal error ignored, and every other status returns the
`ErrorResponse`.  The body-read failure branch of the Go code is not
representable here because the body is given as a value. -/
def checkResponse (r : HttpResponse) : Option CheckError :=
  if 200 ≤ r.status ∧ r.status ≤ 299 then none
  else
    let o := unmarshalErrorResponseStr r.body
    let er : ErrFields :=
      if r.body.length > 0 then
        if o.err.isSome then { o.value with message := r.body } else o.value
      else zeroErr
    if r.status = 400 then
      some (.validationError r.status (unmarshalValidationStr r.body).value)
    else
      some (.errorResponse r.status er.message er.code)

/-! ## The signer: HMAC-SHA-512 over byte lists

`createSignedRequestHeader` computes `hex.EncodeToString(hmac(sha512, secret,
body))`.  The hash is embedded executably: bytes are naturals below 256,
64-bit words are naturals reduced mod 2^64 where overflow matters.
-/

/-- Addition of 64-bit words. -/
def add64 (a b : Nat) : Nat := (a + b) % 2 ^ 64

/-- Right rotation of a 64-bit word. -/
def rotr64 (x k : Nat) : Nat := ((x >>> k) ||| (x <<< (64 - k))) % 2 ^ 64

/-- Bitwise complement of a 64-bit word. -/
def not64 (x : Nat) : Nat := x ^^^ 0xFFFFFFFFFFFFFFFF

/-- SHA-512 Ch function. -/
def shaCh (x y z : Nat) : Nat := (x &&& y) ^^^ (not64 x &&& z)

/-- SHA-512 Maj function. -/
def shaMaj (x y z : Nat) : Nat := (x &&& y) ^^^ (x &&& z) ^^^ (y &&& z)

/-- SHA-512 Σ0. -/
def bigSigma0 (x : Nat) : Nat := rotr64 x 28 ^^^ rotr64 x 34 ^^^ rotr64 x 39

/-- SHA-512 Σ1. -/
def bigSigma1 (x : Nat) : Nat := rotr64 x 14 ^^^ rotr64 x 18 ^^^ rotr64 x 41

/-- SHA-512 σ0. -/
def smallSigma0 (x : Nat) : Nat := rotr64 x 1 ^^^ rotr64 x 8 ^^^ (x >>> 7)

/-- SHA-512 σ1. -/
def smallSigma1 (x : Nat) : Nat := rotr64 x 19 ^^^ rotr64 x 61 ^^^ (x >>> 6)

/-- The eight working variables of the SHA-512 compression function. -/
structure Hash8 where
  a : Nat
  b : Nat
  c : Nat
  d : Nat
  e : Nat
  f : Nat
  g : Nat
  h : Nat
deriving Repr, DecidableEq

/-- SHA-512 initial hash value (FIPS 180-4, written in decimal). -/
def sha512InitH : Hash8 :=
  ⟨7640891576956012808, 13503953896175478587, 4354685564936845355,
   11912009170470909681, 5840696475078001361, 11170449401992604703,
   2270897969802886507, 6620516959819538809⟩

/-- The eighty SHA-512 round constants (FIPS 180-4, written in decimal). -/
def sha512K : List Nat :=
  [4794697086780616226, 8158064640168781261, 13096744586834688815,
   16840607885511220156, 4131703408338449720, 6480981068601479193,
   10538285296894168987, 12329834152419229976, 15566598209576043074,
   1334009975649890238, 2608012711638119052, 6128411473006802146,
   8268148722764581231, 9286055187155687089, 11230858885718282805,
   13951009754708518548, 16472876342353939154, 17275323862435702243,
   1135362057144423861, 2597628984639134821, 3308224258029322869,
   5365058923640841347, 6679025012923562964, 8573033837759648693,
   10970295158949994411, 12119686244451234320, 12683024718118986047,
   13788192230050041572, 14330467153632333762, 15395433587784984357,
   489312712824947311, 1452737877330783856, 2861767655752347644,
   3322285676063803686, 5560940570517711597, 5996557281743188959,
   7280758554555802590, 8532644243296465576, 9350256976987008742,
   10552545826968843579, 11727347734174303076, 12113106623233404929,
   14000437183269869457, 14369950271660146224, 15101387698204529176,
   15463397548674623760, 17586052441742319658, 1182934255886127544,
   1847814050463011016, 2177327727835720531, 2830643537854262169,
   3796741975233480872, 4115178125766777443, 5681478168544905931,
   6601373596472566643, 7507060721942968483, 8399075790359081724,
   8693463985226723168, 9568029438360202098, 10144078919501101548,
   10430055236837252648, 11840083180663258601, 13761210420658862357,
   14299343276471374635, 14566680578165727644, 15097957966210449927,
   16922976911328602910, 17689382322260857208, 500013540394364858,
   748580250866718886, 1242879168328830382, 1977374033974150939,
   2944078676154940804, 3659926193048069267, 4368137639120453308,
   4836135668995329356, 5532061633213252278, 6448918945643986474,
   6902733635092675308, 7801388544844847127]

/-- Split a list into consecutive chunks of the given size (the inputs used
here always have length a multiple of the size). -/
def chunksGo (size : Nat) : Nat → List Nat → List (List Nat)
  | 0, _ => []
  | n + 1, l => l.take size :: chunksGo size n (l.drop size)

/-- All consecutive chunks of the given size. -/
def chunks (size : Nat) (l : List Nat) : List (List Nat) :=
  chunksGo size (l.length / size) l

/-- A big-endian word from a list of bytes. -/
def wordOfBytes (bs : List Nat) : Nat :=
  bs.foldl (fun acc b => acc * 256 + b) 0

/-- The eight big-endian bytes of a 64-bit word. -/
def wordBytes (w : Nat) : List Nat :=
  [(w >>> 56) % 256, (w >>> 48) % 256, (w >>> 40) % 256, (w >>> 32) % 256,
   (w >>> 24) % 256, (w >>> 16) % 256, (w >>> 8) % 256, w % 256]

/-- One step of the message-schedule extension, on the reversed schedule
(most recent word first). -/
def scheduleStep (rev : List Nat) : List Nat :=
  add64 (add64 (smallSigma1 (rev.getD 1 0)) (rev.getD 6 0))
        (add64 (smallSigma0 (rev.getD 14 0)) (rev.getD 15 0)) :: rev

/-- The eighty-word message schedule from a sixteen-word block. -/
def schedule (ws : List Nat) : List Nat :=
  (Nat.repeat scheduleStep 64 ws.reverse).reverse

/-- One SHA-512 round. -/
def sha512Round (st : Hash8) (kw : Nat × Nat) : Hash8 :=
  let t1 := add64 st.h (add64 (bigSigma1 st.e) (add64 (shaCh st.e st.f st.g) (add64 kw.1 kw.2)))
  let t2 := add64 (bigSigma0 st.a) (shaMaj st.a st.b st.c)
  ⟨add64 t1 t2, st.a, st.b, st.c, add64 st.d t1, st.e, st.f, st.g⟩

/-- The SHA-512 compression function on one 128-byte block. -/
def sha512Compress (st : Hash8) (block : List Nat) : Hash8 :=
  let ws := schedule ((chunks 8 block).map wordOfBytes)
  let f := (sha512K.zip ws).foldl sha512Round st
  ⟨add64 st.a f.a, add64 st.b f.b, add64 st.c f.c, add64 st.d f.d,
   add64 st.e f.e, add64 st.f f.f, add64 st.g f.g, add64 st.h f.h⟩

/-- SHA-512 padding: 0x80, zeros, and the 128-bit big-endian bit length,
to a multiple of 128 bytes. -/
def sha512Pad (msg : List Nat) : List Nat :=
  let padZeros := (128 - (msg.length + 17) % 128) % 128
  let lenBytes := (List.range 16).map fun i => ((msg.length * 8) >>> (8 * (15 - i))) % 256
  msg ++ 0x80 :: (List.replicate padZeros 0 ++ lenBytes)

/-- The big-endian bytes of the final hash state. -/
def digestBytes (s : Hash8) : List Nat :=
  wordBytes s.a ++ wordBytes s.b ++ wordBytes s.c ++ wordBytes s.d ++
  wordBytes s.e ++ wordBytes s.f ++ wordBytes s.g ++ wordBytes s.h

/-- SHA-512 of a byte list. -/
def sha512Bytes (msg : List Nat) : List Nat :=
  digestBytes ((chunks 128 (sha512Pad msg)).foldl sha512Compress sha512InitH)

/-- HMAC-SHA-512 as in Go `crypto/hmac`: a key longer than the 128-byte block
is hashed first, the key is zero-padded to the block size, and the digest is
`H((k xor opad) ++ H((k xor ipad) ++ msg))`. -/
def hmacSha512 (key msg : List Nat) : List Nat :=
  let k0 := if 128 < key.length then sha512Bytes key else key
  let kp := k0 ++ List.replicate (128 - k0.length) 0
  let ipadKey := kp.map fun b => b ^^^ 0x36
  let opadKey := kp.map fun b => b ^^^ 0x5c
  sha512Bytes (opadKey ++ sha512Bytes (ipadKey ++ msg))

/-- The lowercase hexadecimal digit for a value below 16. -/
def hexDigitChar (n : Nat) : Char :=
  "0123456789abcdef".toList.getD n '0'

/-- Two lowercase hex characters per byte, as `hex.EncodeToString` emits. -/
def hexChars : List Nat → List Char
  | [] => []
  | b :: bs => hexDigitChar (b / 16) :: hexDigitChar (b % 16) :: hexChars bs

/-- `hex.EncodeToString`: lowercase hexadecimal rendering of a byte list. -/
def hexEncodeLower (bs : List Nat) : String :=
  String.mk (hexChars bs)

/-- UTF-8 bytes of a code point (ASCII inputs give their single byte). -/
def utf8Bytes (n : Nat) : List Nat :=
  if n < 0x80 then [n]
  else if n < 0x800 then
    [0xC0 ||| (n >>> 6), 0x80 ||| (n &&& 0x3F)]
  else if n < 0x10000 then
    [0xE0 ||| (n >>> 12), 0x80 ||| ((n >>> 6) &&& 0x3F), 0x80 ||| (n &&& 0x3F)]
  else
    [0xF0 ||| (n >>> 18), 0x80 ||| ((n >>> 12) &&& 0x3F),
     0x80 ||| ((n >>> 6) &&& 0x3F), 0x80 ||| (n &&& 0x3F)]

/-- The bytes of a string (`[]byte(s)` in Go). -/
def strBytes (s : String) : List Nat :=
  s.toList.foldr (fun c acc => utf8Bytes c.toNat ++ acc) []

/-! ## Client, URL parsing and construction -/

/-- The HTTP transport configuration the client is built with: a fixed
timeout (`http.Client{Timeout: time.Second * 10}`). -/
structure HttpTransport where
  timeoutSeconds : Nat
deriving Repr, DecidableEq

/-- The transport `NewClient` configures. -/
def defaultTransport : HttpTransport := ⟨10⟩

/-- A parsed base URL: the lowercased scheme and the remainder of the text.
`net/url.Parse` keeps far more structure; the model keeps what the library
observes (the claims never inspect components beyond the parse succeeding). -/
structure URL where
  scheme : String
  rest : String
deriving Repr, DecidableEq

/-- `Client` manages communication with the Coinspaid API, as in
`src/unnamed/part_001` (exported `BaseURL`). -/
structure Client where
  apiKey : String
  apiSecret : String
  BaseURL : URL
  httpClient : HttpTransport
deriving Repr, DecidableEq

/-- Whether the text contains an ASCII control character, which
`net/url.Parse` rejects. -/
def containsCTL (s : String) : Bool :=
  s.toList.any fun c => c.toNat < 0x20 || c.toNat = 0x7f

/-- The scheme-splitting scan of `net/url`: letters then letters, digits,
`+`, `-`, `.` up to a colon give a scheme; a leading colon is the error
"missing protocol scheme"; any other shape means no scheme and the whole
text is kept as the remainder. -/
def getScheme (raw : String) : Except String (String × String) :=
  go raw.toList []
where
  /-- Scan for the colon terminating a scheme. -/
  go : List Char → List Char → Except String (String × String)
    | [], _ => .ok ("", raw)
    | c :: rest, acc =>
      if c.isAlpha then go rest (c :: acc)
      else if c.isDigit || c = '+' || c = '-' || c = '.' then
        if acc.isEmpty then .ok ("", raw) else go rest (c :: acc)
      else if c = ':' then
        if acc.isEmpty then .error "missing protocol scheme"
        else .ok (lowerKey (String.mk acc.reverse), String.mk rest)
      else .ok ("", raw)

/-- Whether every percent sign begins a valid two-hex-digit escape. -/
def validEscapes : List Char → Bool
  | [] => true
  | '%' :: a :: b :: rest => (hexVal a).isSome && (hexVal b).isSome && validEscapes rest
  | '%' :: _ => false
  | _ :: rest => validEscapes rest

/-- A model of `net/url.Parse` covering its rejection of control characters,
a missing protocol scheme, and invalid percent escapes.  Host, port and
bracket validation are elided: the library only needs whether parsing
succeeds, and the claims do not depend on which malformed hosts Go also
rejects. -/
def urlParse (raw : String) : Except String URL :=
  if containsCTL raw then .error "net/url: invalid control character in URL"
  else
    match getScheme raw with
    | .error e => .error e
    | .ok (scheme, rest) =>
      if validEscapes rest.toList then .ok ⟨scheme, rest⟩
      else .error "invalid URL escape"

/-- `NewClient` returns a new instance of the Coinspaid client, as in
`src/unnamed/part_001`: an error if any of the key, secret or endpoint is
empty, an error if the endpoint does not parse as a URL, and otherwise a
client holding the credentials, the parsed base URL and the default
transport.  The function is pure: no network call is attempted. -/
def NewClient (apiKey apiSecret baseEndpoint : String) : Except String Client :=
  if apiKey = "" ∨ apiSecret = "" ∨ baseEndpoint = "" then
    .error "apiKey, apiSecret and baseEndpoint are required to create a Client"
  else
    match urlParse baseEndpoint with
    | .error _ => .error "cannot parse base endpoint"
    | .ok baseURL => .ok ⟨apiKey, apiSecret, baseURL, defaultTransport⟩

/-! ## Request building and the operation pipelines

Each operation serializes its input, signs the bytes, builds the request and
hands the transport response (given here as an oracle value, since the
network is outside the model) to `doRequest`, which classifies it and decodes
the body on success.  The client value is threaded through every step so
that the absence of mutation is a property of the translation, not an
assumption: the Go code contains no assignment to any `client` field.
-/

/-- `createSignedRequestHeader`: lowercase hex of the HMAC-SHA-512 of the
body bytes keyed by the API secret.  The Go error result is constantly nil
and is dropped here. -/
def Client.createSignedRequestHeader (client : Client) (body : List Nat) : String :=
  hexEncodeLower (hmacSha512 (strBytes client.apiSecret) body)

/-- An outgoing request: method, path relative to the base URL, headers and
body.  URL resolution against the base is elided (no claim observes it). -/
structure Request where
  method : String
  path : String
  headers : List (String × String)
  body : String
deriving Repr, DecidableEq

/-- Build the signed POST request the operations send. -/
def buildRequest (client : Client) (path body : String) : Request :=
  ⟨"POST", path,
   [("Accept", "application/json"),
    ("Content-Type", "application/json"),
    ("X-Processing-Key", client.apiKey),
    ("X-Processing-Signature", client.createSignedRequestHeader (strBytes body))],
   body⟩

/-- The error a client operation returns: a classification error from
`checkResponse` or a decode error from the success path. -/
inductive RequestError where
  | check (e : CheckError)
  | decode (msg : String)
deriving Repr, DecidableEq

/-- `doRequest`: classify the response; on pass, decode the body into the
target (`json.NewDecoder(res.Body).Decode`, which fails on empty or invalid
bodies and otherwise invokes the target type Unmarshaler).  Returns the
client unchanged alongside the result. -/
def doRequest {α : Type} (client : Client) (resp : HttpResponse)
    (decodeBody : String → Except String α) : Except RequestError α × Client :=
  match checkResponse resp with
  | some e => (.error (.check e), client)
  | none =>
    match decodeBody resp.body with
    | .error m => (.error (.decode m), client)
    | .ok v => (.ok v, client)

/-- `TakeAddressInput`: the parameters of `TakeAddress`. -/
structure TakeAddressInput where
  ForeignID : String
  Currency : String
deriving Repr, DecidableEq

/-- `WithdrawCryptoInput`: the parameters of `WithdrawCrypto`.  The source
declares `Amount` as `float64`; it is carried as an integer here (the claims
never observe the marshaled amount, and floating-point rendering is outside
the model). -/
structure WithdrawCryptoInput where
  ForeignID : String
  Amount : Int
  Currency : String
  Address : String
  Tag : String
deriving Repr, DecidableEq

/-- A JSON string literal for a field value. -/
def quoteJson (s : String) : String :=
  "\"" ++ escapeJsonString s.toList ++ "\""

/-- `json.Marshal` of a `TakeAddressInput` (fields in declaration order;
Go HTML escaping of angle brackets and ampersands is elided). -/
def marshalTakeAddressInput (i : TakeAddressInput) : String :=
  String.mk [lbrace] ++ "\"foreign_id\":" ++ quoteJson i.ForeignID ++
  ",\"currency\":" ++ quoteJson i.Currency ++ String.mk [rbrace]

/-- `json.Marshal` of a `WithdrawCryptoInput`. -/
def marshalWithdrawCryptoInput (i : WithdrawCryptoInput) : String :=
  String.mk [lbrace] ++ "\"foreign_id\":" ++ quoteJson i.ForeignID ++
  ",\"amount\":" ++ toString i.Amount ++
  ",\"currency\":" ++ quoteJson i.Currency ++
  ",\"address\":" ++ quoteJson i.Address ++
  ",\"tag\":" ++ quoteJson i.Tag ++ String.mk [rbrace]

/-- `TakeAddress` as in `src/unnamed/part_001`: marshal the input, sign it,
build the request, classify the given transport response and decode the body
through `Address.UnmarshalJSON`. -/
def Client.TakeAddress (client : Client) (input : TakeAddressInput)
    (resp : HttpResponse) : Except RequestError Address × Client :=
  let j := marshalTakeAddressInput input
  let _req := buildRequest client "addresses/take" j
  doRequest client resp Address.UnmarshalJSON

/-- `TakeAddress` as in `src/coinspaid.go`, the repository revision whose
`Address.UnmarshalJSON` swallows the unmarshal error.  The decoder stage
still fails on syntactically invalid bodies, because `Decoder.Decode`
rejects those before the Unmarshaler runs. -/
def Client.TakeAddressOld (client : Client) (input : TakeAddressInput)
    (resp : HttpResponse) : Except RequestError Address × Client :=
  let j := marshalTakeAddressInput input
  let _req := buildRequest client "addresses/take" j
  doRequest client resp fun body =>
    match parseJson body with
    | none => .error "invalid JSON"
    | some _ => Address.UnmarshalJSONOld zeroAddress body

/-- `WithdrawCrypto` as in `src/unnamed/part_001`. -/
def Client.WithdrawCrypto (client : Client) (input : WithdrawCryptoInput)
    (resp : HttpResponse) : Except RequestError WithdrawCryptoPayload × Client :=
  let j := marshalWithdrawCryptoInput input
  let _req := buildRequest client "withdrawal/crypto" j
  doRequest client resp WithdrawCryptoPayload.UnmarshalJSON

/-! ## Helper lemmas and concrete scenario values -/

/-- Hex encoding emits two characters per byte. -/
theorem hexChars_length (bs : List Nat) : (hexChars bs).length = 2 * bs.length := by
  induction bs with
  | nil => rfl
  | cons b bs ih => simp only [hexChars, List.length_cons, ih]; omega

/-- Hex encoding of a byte list has twice its length. -/
theorem hexEncodeLower_length (bs : List Nat) : (hexEncodeLower bs).length = 2 * bs.length :=
  hexChars_length bs

/-- The serialized hash state is always 64 bytes. -/
theorem digestBytes_length (s : Hash8) : (digestBytes s).length = 64 := by
  simp [digestBytes, wordBytes]

/-- SHA-512 digests are 64 bytes for every message. -/
theorem sha512Bytes_length (msg : List Nat) : (sha512Bytes msg).length = 64 :=
  digestBytes_length _

/-- HMAC-SHA-512 digests are 64 bytes for every key and message. -/
theorem hmacSha512_length (key msg : List Nat) : (hmacSha512 key msg).length = 64 :=
  sha512Bytes_length _

/-- A string is empty exactly when its length is zero. -/
theorem string_eq_empty_iff_length (s : String) : s = "" ↔ s.length = 0 := by
  constructor
  · intro h; subst h; rfl
  · intro h
    cases s with
    | mk data =>
      cases data with
      | nil => rfl
      | cons c cs => simp [String.length] at h

/-- On a 400 status, `checkResponse` always returns the validation error
built from the best-effort decode of the body. -/
theorem checkResponse_400 (body : String) :
    checkResponse ⟨400, body⟩ =
      some (.validationError 400 (unmarshalValidationStr body).value) := by
  simp [checkResponse]

/-- A reusable client value for concrete scenarios. -/
def clientEx : Client := ⟨"key", "secret", ⟨"https", "//app.example"⟩, defaultTransport⟩

/-- A client sharing `clientEx`'s secret but with a different key. -/
def clientEx2 : Client := ⟨"other-key", "secret", ⟨"https", "//app.example"⟩, defaultTransport⟩

/-- The take-address input of the test scenarios. -/
def takeAddressInputEx : TakeAddressInput := ⟨"user-id:2048", "EUR"⟩

/-- The withdraw-crypto input of the test scenarios. -/
def withdrawCryptoInputEx : WithdrawCryptoInput :=
  ⟨"user-id:2048", 200000000, "BTC", "3P3QsMVK89JBNqZQv5zMAKG8FK3kJM4rjt", ""⟩

/-- The 403 body of scenario B (`invalidAuthResponse` in the tests). -/
def invalidAuthBody : String :=
  "\x7b\"error\":\"Bad key header\",\"code\":\"bad_header_key\"\x7d"

/-- The 400 body of scenario C (`badRequestResponse` in the tests). -/
def badRequestBody : String :=
  "\x7b\"errors\":\x7b\"foreign_id\":\"The foreign id field is required.\"\x7d\x7d"

/-- The 2xx body of scenario D (`withdrawCryptoOkResponse` in the tests,
canonically formatted). -/
def withdrawCryptoOkBody : String :=
  "\x7b\"data\":\x7b\"id\":1,\"foreign_id\":\"user-id:2048\",\"type\":\"withdrawal\"," ++
  "\"status\":\"processing\",\"amount\":\"0.01000000\",\"sender_amount\":\"0.01000000\"," ++
  "\"sender_currency\":\"ETH\",\"receiver_amount\":\"0.01000000\"," ++
  "\"receiver_currency\":\"ETH\"\x7d\x7d"

/-- The payload scenario D decodes to. -/
def withdrawPayloadEx : WithdrawCryptoPayload :=
  ⟨"1", "user-id:2048", "withdrawal", "processing", "0.01000000",
   "ETH", "0.01000000", "ETH", "0.01000000"⟩

/-- A non-400 error body whose `error` member is not a string but whose
`code` member is: valid JSON that fails to unmarshal as the error envelope. -/
def cexErrorBody : String := "\x7b\"error\":5,\"code\":\"c\"\x7d"

/-- A 400 body whose `errors` object carries a non-string value: valid JSON
that fails to unmarshal as the validation envelope. -/
def cexValidationBody : String := "\x7b\"errors\":\x7b\"a\":5\x7d\x7d"

/-! ## Claim theorems -/

/-- Decidable equality for `Except`, needed to evaluate pipeline results on
concrete scenarios. -/
instance {ε α : Type} [DecidableEq ε] [DecidableEq α] : DecidableEq (Except ε α) := fun a b =>
  match a, b with
  | .ok x, .ok y =>
    if h : x = y then .isTrue (by rw [h]) else .isFalse fun hc => h (Except.ok.inj hc)
  | .error x, .error y =>
    if h : x = y then .isTrue (by rw [h]) else .isFalse fun hc => h (Except.error.inj hc)
  | .ok _, .error _ => .isFalse fun hc => Except.noConfusion hc
  | .error _, .ok _ => .isFalse fun hc => Except.noConfusion hc

set_option maxRecDepth 40000

/-- C1: evaluation of the code at the failing input.  At a 2xx response whose
body `[1]` is valid JSON but does not unmarshal as the `data` envelope, the
`src/coinspaid.go` revision of `Address.UnmarshalJSON` (which returns nil on
the unmarshal failure) makes `TakeAddress` report success with a
zero-valued `Address`, while the `src/unnamed/part_001` revision (which
returns the error) makes `TakeAddress` return the decode failure and no
payload.  The claim — the decode failure is returned to the caller rather
than a silently-defaulted struct — holds of the latter revision and fails on
the former. -/
theorem claim_C1_code_divergence :
    Address.UnmarshalJSONOld zeroAddress "[1]" = .ok zeroAddress
    ∧ (clientEx.TakeAddressOld takeAddressInputEx ⟨200, "[1]"⟩).1 = .ok zeroAddress
    ∧ (clientEx.TakeAddress takeAddressInputEx ⟨200, "[1]"⟩).1 =
        .error (.decode "json: cannot unmarshal value into address envelope") := by
  refine ⟨by decide, by decide, by decide⟩

/-- C3: every 400 response makes the client operation return a validation
error carrying the field-to-message mapping decoded from the body, and on
the scenario C body that mapping contains the key `foreign_id`. -/
theorem claim_C3_validation_error :
    (∀ (c : Client) (input : TakeAddressInput) (body : String),
        (c.TakeAddress input ⟨400, body⟩).1 =
          .error (.check (.validationError 400 (unmarshalValidationStr body).value)))
    ∧ List.lookup "foreign_id" (unmarshalValidationStr badRequestBody).value =
        some "The foreign id field is required." := by
  constructor
  · intro c input body
    simp [Client.TakeAddress, doRequest, checkResponse_400]
  · decide

/-- C7: decoding the scenario D withdraw-crypto envelope (2xx, `foreign_id`
"user-id:2048", `id` the JSON number 1) yields the expected payload: its
`foreign_id` is "user-id:2048" and its identifier is the raw token "1" of
the number 1, whose integer reading is 1. -/
theorem claim_C7_withdraw_decode :
    (clientEx.WithdrawCrypto withdrawCryptoInputEx ⟨200, withdrawCryptoOkBody⟩).1 =
        .ok withdrawPayloadEx
    ∧ withdrawPayloadEx.ForeignID = "user-id:2048"
    ∧ withdrawPayloadEx.ID = "1"
    ∧ parseIntToken withdrawPayloadEx.ID = some 1 := by
  refine ⟨by decide, rfl, rfl, by decide⟩

/-- C8: no client operation mutates the client: for every input and every
transport response, the client value returned by `TakeAddress` and by
`WithdrawCrypto` is the one that went in (hence its `apiKey`, `apiSecret`,
base URL and transport configuration are unchanged). -/
theorem claim_C8_no_mutation :
    (∀ (c : Client) (i : TakeAddressInput) (r : HttpResponse),
        (c.TakeAddress i r).2 = c)
    ∧ (∀ (c : Client) (i : WithdrawCryptoInput) (r : HttpResponse),
        (c.WithdrawCrypto i r).2 = c) := by
  constructor
  · intro c i r
    simp only [Client.TakeAddress, doRequest]
    cases checkResponse r with
    | some e => rfl
    | none =>
      cases Address.UnmarshalJSON r.body with
      | error m => rfl
      | ok v => rfl
  · intro c i r
    simp only [Client.WithdrawCrypto, doRequest]
    cases checkResponse r with
    | some e => rfl
    | none =>
      cases WithdrawCryptoPayload.UnmarshalJSON r.body with
      | error m => rfl
      | ok v => rfl

/-- C10: `ID.UnmarshalJSON` never fails and stores the raw token bytes
verbatim: the JSON number token `1` becomes the one-character value "1",
and the five raw bytes of the JSON string token `"abc"` are stored with
their surrounding quote characters. -/
theorem claim_C10_id_raw_bytes :
    (∀ data : String, ID.UnmarshalJSON data = .ok data)
    ∧ ID.UnmarshalJSON "1" = .ok "1"
    ∧ ("1" : String).length = 1
    ∧ ID.UnmarshalJSON "\"abc\"" = .ok "\"abc\""
    ∧ ("\"abc\"" : String).length = 5
    ∧ ("\"abc\"" : String).front = '"'
    ∧ ("\"abc\"" : String).back = '"' := by
  exact ⟨fun _ => rfl, rfl, rfl, rfl, rfl, by decide, by decide⟩

/-- C2 (amended): for every response whose status is neither 2xx nor 400,
`checkResponse` returns a generic API error; its message is empty for an
empty body, is the raw body text when the body fails to unmarshal as the
`error`/`code` envelope, and is the decoded `error` member otherwise; its
code is the best-effort decoded `code` member (empty whenever the body is
not valid JSON, but retained when a string `code` member decodes even though
the unmarshal as a whole fails).  In particular a 403 with the scenario B
body yields code "bad_header_key". -/
theorem claim_C2_amended :
    (∀ (status : Nat) (body : String), ¬ (200 ≤ status ∧ status ≤ 299) → status ≠ 400 →
      checkResponse ⟨status, body⟩ =
        some (.errorResponse status
          (if body = "" then ""
           else if (unmarshalErrorResponseStr body).err.isSome then body
           else (unmarshalErrorResponseStr body).value.message)
          (if body = "" then "" else (unmarshalErrorResponseStr body).value.code))
      ∧ ((parseJson body).isNone → (unmarshalErrorResponseStr body).value.code = ""))
    ∧ checkResponse ⟨403, invalidAuthBody⟩ =
        some (.errorResponse 403 "Bad key header" "bad_header_key") := by
  constructor
  · intro status body h2xx h400
    constructor
    · simp only [checkResponse]
      rw [if_neg h2xx, if_neg h400]
      by_cases hb : body = ""
      · subst hb
        simp [zeroErr]
      · have hlen : 0 < body.length := by
          rcases Nat.eq_zero_or_pos body.length with h0 | h0
          · exact absurd ((string_eq_empty_iff_length body).2 h0) hb
          · exact h0
        rw [if_pos hlen, if_neg hb, if_neg hb]
        by_cases herr : (unmarshalErrorResponseStr body).err.isSome = true
        · rw [if_pos herr, if_pos herr]
        · rw [if_neg herr, if_neg herr]
    · intro hnone
      unfold unmarshalErrorResponseStr
      cases hp : parseJson body with
      | none => rfl
      | some j => rw [hp] at hnone; simp at hnone
  · decide

/-- C2 (counterexample): the claim as stated is false.  At status 500 with
the valid-JSON body whose `error` member is the number 5 and whose `code`
member is the string "c", the unmarshal fails, so by the claim the message
should be the raw body text and the code empty — but the code returned is
"c", the member the best-effort decode populated before the failure. -/
theorem claim_C2_counterexample :
    ¬ (∀ (status : Nat) (body : String), ¬ (200 ≤ status ∧ status ≤ 299) → status ≠ 400 →
        (unmarshalErrorResponseStr body).err.isSome = true →
        checkResponse ⟨status, body⟩ = some (.errorResponse status body "")) := by
  intro hclaim
  have h := hclaim 500 cexErrorBody (by decide) (by decide) (by decide)
  have hx : checkResponse ⟨500, cexErrorBody⟩ =
      some (.errorResponse 500 cexErrorBody "c") := by decide
  rw [hx] at h
  exact absurd h (by decide)

/-- C2 (witness): the amended theorem applied to the concrete 403 response
of scenario B. -/
theorem claim_C2_amended_witness :
    checkResponse ⟨403, invalidAuthBody⟩ =
      some (.errorResponse 403
        (if invalidAuthBody = "" then ""
         else if (unmarshalErrorResponseStr invalidAuthBody).err.isSome then invalidAuthBody
         else (unmarshalErrorResponseStr invalidAuthBody).value.message)
        (if invalidAuthBody = "" then ""
         else (unmarshalErrorResponseStr invalidAuthBody).value.code)) :=
  (claim_C2_amended.1 403 invalidAuthBody (by decide) (by decide)).1

/-- C4: the signer equals the lowercase hexadecimal rendering of the
HMAC-SHA-512 digest of the body keyed by the secret, depends only on the
pair (secret, body), and always produces exactly 128 characters. -/
theorem claim_C4_sign :
    (∀ (client : Client) (body : List Nat),
        client.createSignedRequestHeader body =
          hexEncodeLower (hmacSha512 (strBytes client.apiSecret) body))
    ∧ (∀ (c₁ c₂ : Client) (b₁ b₂ : List Nat), c₁.apiSecret = c₂.apiSecret → b₁ = b₂ →
        c₁.createSignedRequestHeader b₁ = c₂.createSignedRequestHeader b₂)
    ∧ (∀ (client : Client) (body : List Nat),
        (client.createSignedRequestHeader body).length = 128) := by
  refine ⟨fun _ _ => rfl, ?_, ?_⟩
  · intro c₁ c₂ b₁ b₂ hsec hbody
    subst hbody
    simp [Client.createSignedRequestHeader, hsec]
  · intro client body
    calc (client.createSignedRequestHeader body).length
        = 2 * (hmacSha512 (strBytes client.apiSecret) body).length :=
          hexEncodeLower_length _
      _ = 2 * 64 := by rw [hmacSha512_length]
      _ = 128 := rfl

/-- C4 (witness): the three parts of the signer theorem at concrete values —
two clients sharing the secret "secret" signing the same body. -/
theorem claim_C4_sign_witness :
    clientEx.createSignedRequestHeader (strBytes "body") =
        hexEncodeLower (hmacSha512 (strBytes "secret") (strBytes "body"))
    ∧ clientEx.createSignedRequestHeader (strBytes "body") =
        clientEx2.createSignedRequestHeader (strBytes "body")
    ∧ (clientEx.createSignedRequestHeader (strBytes "body")).length = 128 :=
  ⟨claim_C4_sign.1 clientEx (strBytes "body"),
   claim_C4_sign.2.1 clientEx clientEx2 (strBytes "body") (strBytes "body") rfl rfl,
   claim_C4_sign.2.2 clientEx (strBytes "body")⟩

/-- C6: `NewClient` returns a construction error exactly when one of the
three arguments is empty or the endpoint fails to parse as a URL, and
otherwise returns the client holding the credentials, the parsed base URL
and the default transport.  The embedded constructor is a pure function: no
network call occurs in either case. -/
theorem claim_C6_new_client :
    (∀ (apiKey apiSecret baseEndpoint : String),
        (∃ e, NewClient apiKey apiSecret baseEndpoint = .error e) ↔
          (apiKey = "" ∨ apiSecret = "" ∨ baseEndpoint = "" ∨
           ∃ pe, urlParse baseEndpoint = .error pe))
    ∧ (∀ (apiKey apiSecret baseEndpoint : String) (u : URL),
        apiKey ≠ "" → apiSecret ≠ "" → baseEndpoint ≠ "" →
        urlParse baseEndpoint = .ok u →
        NewClient apiKey apiSecret baseEndpoint =
          .ok ⟨apiKey, apiSecret, u, defaultTransport⟩) := by
  constructor
  · intro k s e
    constructor
    · rintro ⟨err, herr⟩
      by_cases hk : k = ""
      · exact .inl hk
      by_cases hs : s = ""
      · exact .inr (.inl hs)
      by_cases he : e = ""
      · exact .inr (.inr (.inl he))
      refine .inr (.inr (.inr ?_))
      unfold NewClient at herr
      rw [if_neg (by tauto)] at herr
      cases hp : urlParse e with
      | error pe => exact ⟨pe, rfl⟩
      | ok u => rw [hp] at herr; cases herr
    · rintro (h | h | h | ⟨pe, hpe⟩)
      · exact ⟨_, by unfold NewClient; rw [if_pos (by tauto)]⟩
      · exact ⟨_, by unfold NewClient; rw [if_pos (by tauto)]⟩
      · exact ⟨_, by unfold NewClient; rw [if_pos (by tauto)]⟩
      · by_cases hk : k = ""
        · exact ⟨_, by unfold NewClient; rw [if_pos (by tauto)]⟩
        by_cases hs : s = ""
        · exact ⟨_, by unfold NewClient; rw [if_pos (by tauto)]⟩
        by_cases he : e = ""
        · exact ⟨_, by unfold NewClient; rw [if_pos (by tauto)]⟩
        refine ⟨"cannot parse base endpoint", ?_⟩
        unfold NewClient
        rw [if_neg (by tauto), hpe]
  · intro k s e u hk hs he hp
    unfold NewClient
    rw [if_neg (by tauto), hp]

/-- C6 (witness): constructing a client against the production endpoint. -/
theorem claim_C6_new_client_witness :
    NewClient "key" "secret" "https://app.coinspaid.com/api/v2/" =
      .ok ⟨"key", "secret", ⟨"https", "//app.coinspaid.com/api/v2/"⟩, defaultTransport⟩ :=
  claim_C6_new_client.2 "key" "secret" "https://app.coinspaid.com/api/v2/"
    ⟨"https", "//app.coinspaid.com/api/v2/"⟩
    (by decide) (by decide) (by decide) (by decide)

/-- C9 (amended): every 400 response yields a validation-error value whose
mapping is the best-effort decode of the body, the unmarshal failure being
ignored; the mapping is empty whenever the body is empty or not valid JSON;
and the generic raw-body-text error is never returned for status 400. -/
theorem claim_C9_amended :
    ∀ (body : String),
      checkResponse ⟨400, body⟩ =
        some (.validationError 400 (unmarshalValidationStr body).value)
      ∧ ((parseJson body).isNone → (unmarshalValidationStr body).value = [])
      ∧ (∀ (st : Nat) (m cd : String),
          checkResponse ⟨400, body⟩ ≠ some (.errorResponse st m cd)) := by
  intro body
  refine ⟨checkResponse_400 body, ?_, ?_⟩
  · intro hnone
    unfold unmarshalValidationStr
    cases hp : parseJson body with
    | none => rfl
    | some j => rw [hp] at hnone; simp at hnone
  · intro st m cd h
    rw [checkResponse_400 body] at h
    simp at h

/-- C9 (counterexample): the claim as stated is false.  The 400 body whose
`errors` object maps "a" to the number 5 fails to unmarshal, yet the
returned mapping is not empty: the decoder inserted the key "a" with the
zero string before saving the element type error. -/
theorem claim_C9_counterexample :
    ¬ (∀ (body : String), (unmarshalValidationStr body).err.isSome = true →
        checkResponse ⟨400, body⟩ = some (.validationError 400 [])) := by
  intro hclaim
  have h := hclaim cexValidationBody (by decide)
  have hx : checkResponse ⟨400, cexValidationBody⟩ =
      some (.validationError 400 [("a", "")]) := by decide
  rw [hx] at h
  exact absurd h (by decide)

/-- C9 (witness): the amended theorem applied to a 400 response whose body
is not valid JSON: still a validation error, with an empty mapping. -/
theorem claim_C9_amended_witness :
    (unmarshalValidationStr "oops").value = []
    ∧ checkResponse ⟨400, "oops"⟩ =
        some (.validationError 400 (unmarshalValidationStr "oops").value) :=
  ⟨(claim_C9_amended "oops").2.1 (by decide), (claim_C9_amended "oops").1⟩
